import Mathlib

/-!
Verification development for the specification-builder repository.

We shallowly embed the two core components named by the specification:

* the PRD (specification-synthesis) engine, `PRDEngine.synthesize`
  (src/unnamed/part_002), including its markdown-fence stripping and its
  model of the JavaScript built-in `JSON.parse`; and
* the Postgres-backed `SessionManager` (src/unnamed/part_003):
  `createSession`, `getSession`, `saveSessionState`, `generateMagicLink`,
  `restoreSessionFromMagicLink`, `syncOfflineMessages`.

JavaScript strings are modeled as `List Char`; the relational store is
modeled as lists of rows, with `INSERT` appending a row, `SELECT ... WHERE`
filtering, and `ORDER BY` a stable sort (insertion sort).  UUIDs and
timestamps are opaque naturals supplied explicitly by the caller, standing
for the nondeterministic values `uuidv4()` / `new Date()` produce.
-/

set_option maxHeartbeats 1000000

namespace Builder

/-! ## Characters and whitespace -/

/-- Backtick, written by code point to keep the source ASCII-clean. -/
def tickChar : Char := Char.ofNat 96

/-- Double quote. -/
def quoteChar : Char := Char.ofNat 34

/-- Backslash. -/
def bslashChar : Char := Char.ofNat 92

/-- Opening curly brace. -/
def lCurl : Char := Char.ofNat 123

/-- Closing curly brace. -/
def rCurl : Char := Char.ofNat 125

/-- ASCII decimal digit. -/
def isDigitChar (c : Char) : Bool := 48 ≤ c.toNat && c.toNat ≤ 57

/-- Nonzero ASCII decimal digit. -/
def isDigit19 (c : Char) : Bool := 49 ≤ c.toNat && c.toNat ≤ 57

/-- The whitespace class of JavaScript: the set matched by the regex class
backslash-s, which is also the set removed by String.prototype.trim
(WhiteSpace union LineTerminator). -/
def isJsWs (c : Char) : Bool :=
  c.toNat = 9 || c.toNat = 10 || c.toNat = 11 || c.toNat = 12 || c.toNat = 13 ||
  c.toNat = 32 || c.toNat = 0xA0 || c.toNat = 0x1680 ||
  (0x2000 ≤ c.toNat && c.toNat ≤ 0x200A) ||
  c.toNat = 0x2028 || c.toNat = 0x2029 || c.toNat = 0x202F ||
  c.toNat = 0x205F || c.toNat = 0x3000 || c.toNat = 0xFEFF

/-- The (strictly smaller) whitespace class of the JSON grammar used by
JSON.parse: space, tab, line feed, carriage return. -/
def isJsonWs (c : Char) : Bool :=
  c.toNat = 9 || c.toNat = 10 || c.toNat = 13 || c.toNat = 32

/-- Model of String.prototype.trimStart. -/
def trimStartJs (s : List Char) : List Char := s.dropWhile isJsWs

/-- Model of String.prototype.trimEnd. -/
def trimEndJs (s : List Char) : List Char := (s.reverse.dropWhile isJsWs).reverse

/-- Model of String.prototype.trim. -/
def jsTrim (s : List Char) : List Char := trimEndJs (trimStartJs s)

/-! ## JSON values

JavaScript runtime values produced by JSON.parse.  Numbers keep their
validated source lexeme instead of a floating-point value: the engine never
computes with numbers, so this loses nothing and avoids modeling IEEE-754. -/

/-- A parsed JSON value (a JavaScript runtime value in the engine). -/
inductive Json where
  | null : Json
  | bool (b : Bool) : Json
  | num (lexeme : List Char) : Json
  | str (s : List Char) : Json
  | arr (elems : List Json) : Json
  | obj (fields : List (List Char × Json)) : Json

/-! ## A model of JSON.parse

Recursive-descent parser for the JSON grammar (RFC 8259), the grammar
implemented by the JavaScript built-in that `PRDEngine.synthesize` calls.
Leading and trailing whitespace around the single top-level value is removed
up front; this accepts exactly the language ws value ws because a JSON value
itself always begins and ends with a non-whitespace character.  Nested
values are parsed with a fuel parameter; the fuel chosen in `jsonParse`
strictly dominates the recursion depth (each unit of nesting consumes at
least one input character and at most two units of fuel). -/

/-- Numeric value of a hexadecimal digit. -/
def hexVal (c : Char) : Option Nat :=
  if 48 ≤ c.toNat && c.toNat ≤ 57 then some (c.toNat - 48)
  else if 97 ≤ c.toNat && c.toNat ≤ 102 then some (c.toNat - 87)
  else if 65 ≤ c.toNat && c.toNat ≤ 70 then some (c.toNat - 55)
  else none

/-- Parse the remainder of a JSON string after its opening quote, decoding
escape sequences; returns the decoded content and the input after the
closing quote.  A `u` escape denoting a lone surrogate is mapped through
`Char.ofNat` (which collapses it to a default character); surrogate pairs
are not recombined.  No claim touches this corner. -/
def parseStringRest : List Char → Option (List Char × List Char)
  | [] => none
  | c :: cs =>
    if c = quoteChar then some ([], cs)
    else if c = bslashChar then
      match cs with
      | [] => none
      | e :: cs2 =>
        if e = quoteChar then (parseStringRest cs2).map (fun p => (quoteChar :: p.1, p.2))
        else if e = bslashChar then (parseStringRest cs2).map (fun p => (bslashChar :: p.1, p.2))
        else if e = '/' then (parseStringRest cs2).map (fun p => ('/' :: p.1, p.2))
        else if e = 'b' then (parseStringRest cs2).map (fun p => (Char.ofNat 8 :: p.1, p.2))
        else if e = 'f' then (parseStringRest cs2).map (fun p => (Char.ofNat 12 :: p.1, p.2))
        else if e = 'n' then (parseStringRest cs2).map (fun p => (Char.ofNat 10 :: p.1, p.2))
        else if e = 'r' then (parseStringRest cs2).map (fun p => (Char.ofNat 13 :: p.1, p.2))
        else if e = 't' then (parseStringRest cs2).map (fun p => (Char.ofNat 9 :: p.1, p.2))
        else if e = 'u' then
          match cs2 with
          | h1 :: h2 :: h3 :: h4 :: cs3 =>
            match hexVal h1, hexVal h2, hexVal h3, hexVal h4 with
            | some a, some b, some c2, some d =>
              (parseStringRest cs3).map
                (fun p => (Char.ofNat (a * 4096 + b * 256 + c2 * 16 + d) :: p.1, p.2))
            | _, _, _, _ => none
          | _ => none
        else none
    else if c.toNat < 32 then none
    else (parseStringRest cs).map (fun p => (c :: p.1, p.2))

/-- Longest digit prefix and the remainder. -/
def digitsSpan (s : List Char) : List Char × List Char :=
  (s.takeWhile isDigitChar, s.dropWhile isDigitChar)

/-- Integer part of a JSON number: 0, or a nonzero digit followed by digits. -/
def parseIntPart : List Char → Option (List Char × List Char)
  | [] => none
  | c :: cs =>
    if c = '0' then some (['0'], cs)
    else if isDigit19 c then
      let p := digitsSpan cs
      some (c :: p.1, p.2)
    else none

/-- Optional fraction part of a JSON number. -/
def parseFracPart (s : List Char) : Option (List Char × List Char) :=
  match s with
  | '.' :: cs =>
    let p := digitsSpan cs
    if p.1 = [] then none else some ('.' :: p.1, p.2)
  | _ => some ([], s)

/-- Optional exponent part of a JSON number. -/
def parseExpPart (s : List Char) : Option (List Char × List Char) :=
  match s with
  | c :: cs =>
    if c = 'e' || c = 'E' then
      match cs with
      | c2 :: cs2 =>
        if c2 = '+' || c2 = '-' then
          let p := digitsSpan cs2
          if p.1 = [] then none else some (c :: c2 :: p.1, p.2)
        else
          let p := digitsSpan cs
          if p.1 = [] then none else some (c :: p.1, p.2)
      | [] => none
    else some ([], s)
  | [] => some ([], [])

/-- A JSON number: optional minus, integer part, optional fraction and
exponent.  Returns the full lexeme and the remaining input. -/
def parseNumber (s : List Char) : Option (List Char × List Char) :=
  let sp := match s with
            | c :: r => if c = '-' then ((['-'] : List Char), r) else (([] : List Char), s)
            | [] => (([] : List Char), ([] : List Char))
  match parseIntPart sp.2 with
  | none => none
  | some (ip, r1) =>
    match parseFracPart r1 with
    | none => none
    | some (fp, r2) =>
      match parseExpPart r2 with
      | none => none
      | some (ep, r3) => some (sp.1 ++ ip ++ fp ++ ep, r3)

/-- Skip JSON whitespace. -/
def skipJsonWs (s : List Char) : List Char := s.dropWhile isJsonWs

mutual

/-- Parse a single JSON value starting at a non-whitespace position. -/
def parseValue : Nat → List Char → Option (Json × List Char)
  | 0, _ => none
  | _ + 1, [] => none
  | f + 1, c :: cs =>
    if c = quoteChar then (parseStringRest cs).map (fun p => (Json.str p.1, p.2))
    else if c = '[' then
      match skipJsonWs cs with
      | [] => none
      | c2 :: cs2 =>
        if c2 = ']' then some (Json.arr [], cs2)
        else
          match parseElems f (c2 :: cs2) with
          | some (vs, r) => some (Json.arr vs, r)
          | none => none
    else if c = lCurl then
      match skipJsonWs cs with
      | [] => none
      | c2 :: cs2 =>
        if c2 = rCurl then some (Json.obj [], cs2)
        else
          match parseMembs f (c2 :: cs2) with
          | some (fs, r) => some (Json.obj fs, r)
          | none => none
    else if c = 't' then
      match cs with
      | 'r' :: 'u' :: 'e' :: r => some (Json.bool true, r)
      | _ => none
    else if c = 'f' then
      match cs with
      | 'a' :: 'l' :: 's' :: 'e' :: r => some (Json.bool false, r)
      | _ => none
    else if c = 'n' then
      match cs with
      | 'u' :: 'l' :: 'l' :: r => some (Json.null, r)
      | _ => none
    else
      match parseNumber (c :: cs) with
      | some (lex, r) => some (Json.num lex, r)
      | none => none

/-- Parse one or more comma-separated array elements and the closing
bracket. -/
def parseElems : Nat → List Char → Option (List Json × List Char)
  | 0, _ => none
  | f + 1, s =>
    match parseValue f s with
    | none => none
    | some (v, r) =>
      match skipJsonWs r with
      | [] => none
      | c :: r2 =>
        if c = ',' then
          match parseElems f (skipJsonWs r2) with
          | some (vs, r3) => some (v :: vs, r3)
          | none => none
        else if c = ']' then some ([v], r2)
        else none

/-- Parse one or more comma-separated object members and the closing
brace. -/
def parseMembs : Nat → List Char → Option (List (List Char × Json) × List Char)
  | 0, _ => none
  | f + 1, s =>
    match s with
    | [] => none
    | c :: cs =>
      if c = quoteChar then
        match parseStringRest cs with
        | none => none
        | some (key, r1) =>
          match skipJsonWs r1 with
          | [] => none
          | c2 :: r2 =>
            if c2 = ':' then
              match parseValue f (skipJsonWs r2) with
              | none => none
              | some (v, r3) =>
                match skipJsonWs r3 with
                | [] => none
                | c3 :: r4 =>
                  if c3 = ',' then
                    match parseMembs f (skipJsonWs r4) with
                    | some (fs, r5) => some ((key, v) :: fs, r5)
                    | none => none
                  else if c3 = rCurl then some ([(key, v)], r4)
                  else none
            else none
      else none

end

/-- Strip trailing JSON whitespace. -/
def trimEndJsonWs (s : List Char) : List Char := (s.reverse.dropWhile isJsonWs).reverse

/-- Model of the JavaScript built-in JSON.parse: `some` the parsed value, or
`none` when JSON.parse would throw a SyntaxError. -/
def jsonParse (s : List Char) : Option Json :=
  let core := trimEndJsonWs (skipJsonWs s)
  match parseValue (2 * core.length + 2) core with
  | some (v, []) => some v
  | _ => none

/-! ## JavaScript object/value helpers used by the engine -/

/-- Property access o.k on a parsed JSON value, for a non-null receiver:
`none` models the JavaScript value undefined.  JavaScript keeps the last
value for a duplicated object key, hence the reversed search.  (Access on
null throws; `handleParsed` deals with that case before calling this.) -/
def jsProp (v : Json) (key : List Char) : Option Json :=
  match v with
  | Json.obj fields => ((fields.filter (fun f => f.1 = key)).getLast?).map (fun f => f.2)
  | _ => none

/-! ## Shared data model (lib/models/types) -/

/-- Role of a conversation message. -/
inductive Role where
  | user : Role
  | assistant : Role
  | system : Role
deriving DecidableEq

/-- A conversation message as the services handle it.  The uuid string id is
modeled as an opaque natural; metadata is an optional JSON object. -/
structure Message where
  id : Nat
  role : Role
  content : List Char
  timestamp : Nat
  metadata : Option Json

/-! ## PRD Engine (src/unnamed/part_002) -/

/-- Input to PRDEngine.synthesize: the discriminated union of update and
finalize modes.  The current specification is the JavaScript object the
caller passes (modeled at the runtime level as a JSON value, since the
engine only threads it through). -/
inductive PRDEngineInput where
  | update (currentSpec : Json) (lastMessages : List Message) (isFirstRun : Bool) : PRDEngineInput
  | finalize (currentSpec : Json) : PRDEngineInput

/-- The current specification carried by either mode. -/
def PRDEngineInput.currentSpec : PRDEngineInput → Json
  | .update cs _ _ => cs
  | .finalize cs => cs

/-- Output of PRDEngine.synthesize.  `spec` is `none` when the returned
object's spec property is the JavaScript value undefined (the parsed
response had no spec key); `missingSections` is the runtime value the code
returns: the parsed response's array, an empty array, or the fallback's
default list (the element types are not validated). -/
structure PRDEngineOutput where
  spec : Option Json
  missingSections : Json

/-- Which prompt `synthesize` builds.  The literal template texts of
buildUpdatePrompt/buildFinalizePrompt flow only into the opaque
language-model gateway, so we record the builder used and the data it
consults rather than the template prose. -/
inductive Prompt where
  | updatePrompt (specSummary : Option Json) (lastMessages : List Message) : Prompt
  | finalizePrompt (specSummary : Option Json) : Prompt

/-- Mirror of the mode dispatch at the top of synthesize: update mode calls
buildUpdatePrompt, finalize mode calls buildFinalizePrompt; both serialize
currentSpec.plainEnglishSummary into the prompt. -/
def buildPrompt : PRDEngineInput → Prompt
  | .update cs msgs _ => .updatePrompt (jsProp cs ("plainEnglishSummary".data)) msgs
  | .finalize cs => .finalizePrompt (jsProp cs ("plainEnglishSummary".data))

/-- Outcome of the awaited llmRouter.complete call: the response content, or
a rejection (network/provider failure). -/
inductive GatewayResult where
  | ok (content : List Char) : GatewayResult
  | err : GatewayResult

/-- The fixed fallback missing-section list of the catch branch. -/
def defaultMissingSections : List (List Char) :=
  ["overview".data, "targetUsers".data, "keyFeatures".data, "flows".data]

/-- The fallback output of the catch branch: current spec unchanged plus the
default missing-section list. -/
def fallbackOutput (input : PRDEngineInput) : PRDEngineOutput :=
  { spec := some input.currentSpec,
    missingSections := Json.arr (defaultMissingSections.map Json.str) }

/-- Three backticks: the fence marker tested with startsWith. -/
def tick3 : List Char := [tickChar, tickChar, tickChar]

/-- The opening fence with language tag: three backticks followed by json. -/
def fence7 : List Char := tick3 ++ ['j', 's', 'o', 'n']

/-- Model of .replace applied to the anchored opening-fence regex (three
backticks, an optional literal json tag, then greedy whitespace), on a
string known to start with three backticks. -/
def stripOpenFence (s : List Char) : List Char :=
  if s.take 7 = fence7 then (s.drop 7).dropWhile isJsWs
  else (s.drop 3).dropWhile isJsWs

/-- Whether a closing-fence match starts at this position: three backticks
followed only by whitespace up to the end of input. -/
def closeFenceAt (s : List Char) : Bool :=
  decide (s.take 3 = tick3) && (s.drop 3).all isJsWs

/-- Model of .replace applied to the end-anchored closing-fence regex
(three backticks, greedy whitespace, end): the leftmost match, which
necessarily extends to the end of the string, is deleted. -/
def stripCloseFence : List Char → List Char
  | [] => []
  | c :: cs => if closeFenceAt (c :: cs) then [] else c :: stripCloseFence cs

/-- Lines 74-82 of the engine: trim the response, and strip markdown code
fences when the trimmed response starts with three backticks. -/
def processContent (content : List Char) : List Char :=
  let jsonContent := jsTrim content
  if jsonContent.take 3 = tick3 then stripCloseFence (stripOpenFence jsonContent)
  else jsonContent

/-- Lines 86-91 of the engine, for a successfully parsed response value.
A property access on a null receiver throws a TypeError (caught by the
enclosing catch).  Otherwise line 86 evaluates
result.missingSections?.join: the optional chaining short-circuits only
when the property is absent or null, so a .join call on any other
non-array value throws a TypeError, reaching the same catch.  When the
property is an array (the only value that survives line 86 with a method
call), the result object is built; a JavaScript array is truthy even when
empty, so line 90 substitutes the empty array exactly in the two
short-circuited nullish cases. -/
def handleParsed (result : Json) : Except Unit PRDEngineOutput :=
  match result with
  | Json.null => Except.error ()
  | r =>
    match jsProp r ("missingSections".data) with
    | none => Except.ok { spec := jsProp r ("spec".data), missingSections := Json.arr [] }
    | some Json.null => Except.ok { spec := jsProp r ("spec".data), missingSections := Json.arr [] }
    | some (Json.arr l) => Except.ok { spec := jsProp r ("spec".data), missingSections := Json.arr l }
    | some _ => Except.error ()

/-- The body of the try block after a successful gateway call: process the
content, JSON.parse it (a SyntaxError becomes an exception), then build the
output. -/
def synthesizeTry (content : List Char) : Except Unit PRDEngineOutput :=
  match jsonParse (processContent content) with
  | none => Except.error ()
  | some result => handleParsed result

/-- PRDEngine.synthesize as a function of its input and the gateway
outcome.  The try block encloses the gateway call itself, so a gateway
rejection reaches the same catch branch as a parse failure; the catch
returns the unchanged input specification with the default missing-section
list.  The function is total: the source method never rethrows. -/
def synthesize (input : PRDEngineInput) (gw : GatewayResult) : PRDEngineOutput :=
  match (match gw with
         | GatewayResult.err => Except.error ()
         | GatewayResult.ok content => synthesizeTry content) with
  | Except.ok out => out
  | Except.error _ => fallbackOutput input

/-! ## Helper lemmas about whitespace, trimming and fences -/

/-- Line feed. -/
def nlChar : Char := Char.ofNat 10

theorem isJsWs_of_isJsonWs {c : Char} (h : isJsonWs c = true) : isJsWs c = true := by
  simp only [isJsonWs, isJsWs, Bool.or_eq_true, Bool.and_eq_true, decide_eq_true_eq] at h ⊢
  omega

theorem isJsonWs_eq_false {c : Char} (h : isJsWs c = false) : isJsonWs c = false := by
  cases hj : isJsonWs c
  · rfl
  · exact absurd (isJsWs_of_isJsonWs hj) (by simp [h])

theorem trimStartJs_eq_self {l : List Char}
    (h : ∀ c, l.head? = some c → isJsWs c = false) : trimStartJs l = l := by
  cases l with
  | nil => rfl
  | cons c r =>
    have hc : isJsWs c = false := h c rfl
    simp [trimStartJs, List.dropWhile_cons, hc]

theorem trimEndJs_eq_self {l : List Char}
    (h : ∀ c, l.getLast? = some c → isJsWs c = false) : trimEndJs l = l := by
  cases hr : l.reverse with
  | nil =>
    have : l = [] := by simpa using congrArg List.reverse hr
    simp [trimEndJs, this]
  | cons c rest =>
    have hc : l.getLast? = some c := by
      rw [← List.head?_reverse, hr]
      rfl
    have hw := h c hc
    have : (c :: rest).reverse = l := by
      rw [← hr, List.reverse_reverse]
    simp [trimEndJs, hr, List.dropWhile_cons, hw, this]

theorem skipJsonWs_eq_self {l : List Char}
    (h : ∀ c, l.head? = some c → isJsonWs c = false) : skipJsonWs l = l := by
  cases l with
  | nil => rfl
  | cons c r =>
    have hc : isJsonWs c = false := h c rfl
    simp [skipJsonWs, List.dropWhile_cons, hc]

theorem trimEndJsonWs_eq_self {l : List Char}
    (h : ∀ c, l.getLast? = some c → isJsonWs c = false) : trimEndJsonWs l = l := by
  cases hr : l.reverse with
  | nil =>
    have : l = [] := by simpa using congrArg List.reverse hr
    simp [trimEndJsonWs, this]
  | cons c rest =>
    have hc : l.getLast? = some c := by
      rw [← List.head?_reverse, hr]
      rfl
    have hw := h c hc
    have : (c :: rest).reverse = l := by
      rw [← hr, List.reverse_reverse]
    simp [trimEndJsonWs, hr, List.dropWhile_cons, hw, this]

theorem trimEndJsonWs_append_nl (y : List Char) :
    trimEndJsonWs (y ++ [nlChar]) = trimEndJsonWs y := by
  simp [trimEndJsonWs, List.reverse_append, List.dropWhile_cons,
    show isJsonWs nlChar = true by decide]

/-- The top-level shape of jsonParse once its input has no surrounding
whitespace. -/
def parseTop (p : List Char) : Option Json :=
  match parseValue (2 * p.length + 2) p with
  | some (v, []) => some v
  | _ => none

theorem jsonParse_eq_parseTop {p : List Char}
    (hh : ∀ c, p.head? = some c → isJsWs c = false)
    (hl : ∀ c, p.getLast? = some c → isJsWs c = false) :
    jsonParse p = parseTop p := by
  have h1 : skipJsonWs p = p :=
    skipJsonWs_eq_self (fun c hc => isJsonWs_eq_false (hh c hc))
  have h2 : trimEndJsonWs p = p :=
    trimEndJsonWs_eq_self (fun c hc => isJsonWs_eq_false (hl c hc))
  simp [jsonParse, parseTop, h1, h2]

theorem jsonParse_append_nl {p : List Char} (hne : p ≠ [])
    (hh : ∀ c, p.head? = some c → isJsWs c = false)
    (hl : ∀ c, p.getLast? = some c → isJsWs c = false) :
    jsonParse (p ++ [nlChar]) = parseTop p := by
  obtain ⟨c, rest, rfl⟩ := List.exists_cons_of_ne_nil hne
  have hc : isJsonWs c = false := isJsonWs_eq_false (hh c rfl)
  have h2 : trimEndJsonWs (c :: (rest ++ [nlChar])) = c :: rest := by
    have hnl := trimEndJsonWs_append_nl (c :: rest)
    simp only [List.cons_append] at hnl
    rw [hnl]
    exact trimEndJsonWs_eq_self (fun d hd => isJsonWs_eq_false (hl d hd))
  simp only [jsonParse, parseTop, List.cons_append, skipJsonWs, List.dropWhile_cons, hc,
    Bool.false_eq_true, if_false, h2]

theorem parseNumber_tickChar (cs : List Char) : parseNumber (tickChar :: cs) = none := by
  simp only [parseNumber]
  rw [if_neg (by decide)]
  simp only [parseIntPart]
  rw [if_neg (by decide), if_neg (by decide)]

theorem parseValue_tickChar (f : Nat) (cs : List Char) :
    parseValue f (tickChar :: cs) = none := by
  cases f with
  | zero => rfl
  | succ f =>
    simp only [parseValue]
    rw [if_neg (by decide), if_neg (by decide), if_neg (by decide), if_neg (by decide),
      if_neg (by decide), if_neg (by decide), parseNumber_tickChar]

theorem parseTop_tickChar (rest : List Char) : parseTop (tickChar :: rest) = none := by
  simp [parseTop, parseValue_tickChar]

theorem closeFenceAt_cons_append_tick3 (c : Char) (x : List Char) :
    closeFenceAt (c :: (x ++ tick3)) = false := by
  rcases x with _ | ⟨d, _ | ⟨e, x2⟩⟩ <;>
    simp [closeFenceAt, tick3, List.all_append] <;> intros <;> decide

theorem stripCloseFence_append_tick3 (x : List Char) :
    stripCloseFence (x ++ tick3) = x := by
  induction x with
  | nil => rfl
  | cons c x ih =>
    rw [List.cons_append, stripCloseFence, closeFenceAt_cons_append_tick3]
    simp [ih]

theorem jsTrim_eq_self {l : List Char}
    (hhead : ∀ c, l.head? = some c → isJsWs c = false)
    (hlast : ∀ c, l.getLast? = some c → isJsWs c = false) : jsTrim l = l := by
  rw [jsTrim, trimStartJs_eq_self hhead, trimEndJs_eq_self hlast]

theorem getLast?_fence (y : List Char) :
    (y ++ nlChar :: tick3).getLast? = some tickChar := by
  have h : y ++ nlChar :: tick3 = (y ++ [nlChar, tickChar, tickChar]) ++ [tickChar] := by
    simp [tick3]
  rw [h, List.getLast?_concat]

theorem head?_fence (tagged : Bool) (z : List Char) :
    ((if tagged then fence7 else tick3) ++ z).head? = some tickChar := by
  cases tagged <;> simp [fence7, tick3]

/-- A response built of a JSON payload wrapped in markdown fences (with the
json language tag or none) is processed to the payload followed by a line
feed, provided the payload does not itself begin with whitespace. -/
theorem processContent_fenced (p : List Char) (tagged : Bool) (hne : p ≠ [])
    (hh : ∀ c, p.head? = some c → isJsWs c = false) :
    processContent ((if tagged then fence7 else tick3) ++ (nlChar :: (p ++ nlChar :: tick3)))
      = p ++ [nlChar] := by
  obtain ⟨c, rest, rfl⟩ := List.exists_cons_of_ne_nil hne
  have hc : isJsWs c = false := hh c rfl
  have htrim :
      jsTrim ((if tagged then fence7 else tick3) ++ (nlChar :: ((c :: rest) ++ nlChar :: tick3)))
        = (if tagged then fence7 else tick3) ++ (nlChar :: ((c :: rest) ++ nlChar :: tick3)) := by
    apply jsTrim_eq_self
    · intro d hd
      rw [head?_fence] at hd
      cases hd
      decide
    · intro d hd
      rw [show (if tagged then fence7 else tick3) ++ (nlChar :: ((c :: rest) ++ nlChar :: tick3))
            = ((if tagged then fence7 else tick3) ++ (nlChar :: (c :: rest))) ++ nlChar :: tick3 by
          simp] at hd
      rw [getLast?_fence] at hd
      cases hd
      decide
  have htake :
      ((if tagged then fence7 else tick3) ++ (nlChar :: ((c :: rest) ++ nlChar :: tick3))).take 3
        = tick3 := by
    cases tagged <;> rfl
  have hopen :
      stripOpenFence ((if tagged then fence7 else tick3) ++ (nlChar :: ((c :: rest) ++ nlChar :: tick3)))
        = (c :: rest) ++ nlChar :: tick3 := by
    cases tagged with
    | true =>
      rw [show (if (true = true) then fence7 else tick3) = fence7 from rfl]
      have h7 : (fence7 ++ (nlChar :: ((c :: rest) ++ nlChar :: tick3))).take 7 = fence7 := rfl
      rw [stripOpenFence, if_pos h7]
      show List.dropWhile isJsWs (nlChar :: ((c :: rest) ++ nlChar :: tick3)) = _
      rw [List.dropWhile_cons_of_pos (by decide), List.cons_append,
        List.dropWhile_cons_of_neg (by simp [hc])]
    | false =>
      rw [show (if (false = true) then fence7 else tick3) = tick3 from rfl]
      have h7 : ¬ ((tick3 ++ (nlChar :: ((c :: rest) ++ nlChar :: tick3))).take 7 = fence7) := by
        intro h
        have h4 : (tick3 ++ (nlChar :: ((c :: rest) ++ nlChar :: tick3))).take 7
            = tickChar :: tickChar :: tickChar :: nlChar ::
                ((c :: rest) ++ nlChar :: tick3).take 3 := rfl
        rw [h4, fence7, tick3] at h
        have hj := congrArg (fun l => l.get? 3) h
        simp at hj
        exact absurd hj (by decide)
      rw [stripOpenFence, if_neg h7]
      show List.dropWhile isJsWs (nlChar :: ((c :: rest) ++ nlChar :: tick3)) = _
      rw [List.dropWhile_cons_of_pos (by decide), List.cons_append,
        List.dropWhile_cons_of_neg (by simp [hc])]
  have hclose : stripCloseFence ((c :: rest) ++ nlChar :: tick3) = (c :: rest) ++ [nlChar] := by
    have h : (c :: rest) ++ nlChar :: tick3 = ((c :: rest) ++ [nlChar]) ++ tick3 := by simp
    rw [h, stripCloseFence_append_tick3]
  rw [processContent]
  simp only [htrim, htake, if_pos rfl, hopen, hclose]
  simp

/-- A payload with no surrounding whitespace that parses as JSON is left
unchanged by the fence-stripping preprocessing. -/
theorem processContent_clean {p : List Char} (v : Json) (hne : p ≠ [])
    (hh : ∀ c, p.head? = some c → isJsWs c = false)
    (hl : ∀ c, p.getLast? = some c → isJsWs c = false)
    (hv : jsonParse p = some v) :
    processContent p = p := by
  have ht : jsTrim p = p := jsTrim_eq_self hh hl
  have htop : parseTop p = some v := by
    rw [← jsonParse_eq_parseTop hh hl]
    exact hv
  have h3 : ¬ (p.take 3 = tick3) := by
    intro h
    obtain ⟨c, rest, rfl⟩ := List.exists_cons_of_ne_nil hne
    have hstep : (c :: rest).take 3 = c :: rest.take 2 := rfl
    rw [hstep, tick3] at h
    have hc : c = tickChar := (List.cons.injEq _ _ _ _).mp h |>.1
    subst hc
    rw [parseTop_tickChar] at htop
    cases htop
  rw [processContent]
  simp [ht, h3]

/-- Length of a JSON array value, 0 for any other value; used only to
separate unequal JSON values in counterexamples. -/
def jsonArrLen : Json → Nat
  | Json.arr l => l.length
  | _ => 0

/-! ## Claims about the PRD Engine -/

/-- Claim C1, counterexample: a gateway response that parses as JSON but has
no spec key does NOT make synthesize return the unchanged input
specification with the default missing-section list; it returns an output
whose spec is undefined and whose missingSections is the empty array. -/
theorem synthesize_badResponse_cex :
    synthesize (PRDEngineInput.update (Json.obj []) [] true)
        (GatewayResult.ok ("\x7b\x7d".data))
      = { spec := none, missingSections := Json.arr [] }
    ∧ ({ spec := none, missingSections := Json.arr [] } : PRDEngineOutput)
      ≠ { spec := some (Json.obj []),
          missingSections := Json.arr (defaultMissingSections.map Json.str) } := by
  refine ⟨rfl, fun h => ?_⟩
  exact absurd (congrArg (fun o => o.spec.isSome) h) (by decide)

/-- Claim C1, amended: when the gateway response text is malformed JSON,
synthesize does not throw and returns the unchanged input specification
with the default missing-section list.  When the response parses to a
non-null value with no spec key whose missingSections property is absent,
null or an array, synthesize instead returns an output whose spec is the
JavaScript value undefined.  When the parsed missingSections value is
neither nullish nor an array, the method call on line 86 throws, and
synthesize again returns the unchanged input specification with the
default list. -/
theorem synthesize_badResponse_spec (input : PRDEngineInput) (content : List Char) :
    (jsonParse (processContent content) = none →
      synthesize input (GatewayResult.ok content)
        = { spec := some input.currentSpec,
            missingSections := Json.arr (defaultMissingSections.map Json.str) })
    ∧ (∀ r, jsonParse (processContent content) = some r → r ≠ Json.null →
        jsProp r ("spec".data) = none →
        (jsProp r ("missingSections".data) = none
          ∨ jsProp r ("missingSections".data) = some Json.null
          ∨ ∃ l, jsProp r ("missingSections".data) = some (Json.arr l)) →
        (synthesize input (GatewayResult.ok content)).spec = none)
    ∧ (∀ r v, jsonParse (processContent content) = some r → r ≠ Json.null →
        jsProp r ("missingSections".data) = some v → v ≠ Json.null →
        (∀ l, v ≠ Json.arr l) →
        synthesize input (GatewayResult.ok content)
          = { spec := some input.currentSpec,
              missingSections := Json.arr (defaultMissingSections.map Json.str) }) := by
  refine ⟨?_, ?_, ?_⟩
  · intro h
    simp [synthesize, synthesizeTry, h, fallbackOutput]
  · intro r hr hnn hs hm
    simp only [synthesize, synthesizeTry, hr]
    cases r with
    | null => exact absurd rfl hnn
    | bool b => simp [handleParsed, jsProp]
    | num l => simp [handleParsed, jsProp]
    | str s => simp [handleParsed, jsProp]
    | arr l => simp [handleParsed, jsProp]
    | obj f => rcases hm with hm | hm | ⟨l, hm⟩ <;> simp [handleParsed, hm, hs]
  · intro r v hr hnn hm hvn hva
    simp only [synthesize, synthesizeTry, hr]
    cases r with
    | null => exact absurd rfl hnn
    | bool b => simp [jsProp] at hm
    | num l => simp [jsProp] at hm
    | str s => simp [jsProp] at hm
    | arr l => simp [jsProp] at hm
    | obj f =>
      have herr : handleParsed (Json.obj f) = Except.error () := by
        cases v with
        | null => exact absurd rfl hvn
        | arr l => exact absurd rfl (hva l)
        | bool b => simp [handleParsed, hm]
        | num l => simp [handleParsed, hm]
        | str s => simp [handleParsed, hm]
        | obj g => simp [handleParsed, hm]
      rw [herr]
      simp [fallbackOutput]

/-- Claim C1, witness: a concrete malformed response takes the fallback
branch; a parsed empty object yields spec undefined; and a parsed
missingSections of 5 (a number) throws at the logging line and takes the
fallback branch. -/
theorem synthesize_badResponse_witness :
    jsonParse (processContent ("oops".data)) = none
    ∧ synthesize (PRDEngineInput.update (Json.obj []) [] true) (GatewayResult.ok ("oops".data))
      = { spec := some (Json.obj []),
          missingSections := Json.arr (defaultMissingSections.map Json.str) }
    ∧ (synthesize (PRDEngineInput.update (Json.obj []) [] true)
        (GatewayResult.ok ("\x7b\x7d".data))).spec = none
    ∧ synthesize (PRDEngineInput.update (Json.obj []) [] true)
        (GatewayResult.ok ("\x7b\"missingSections\": 5\x7d".data))
      = { spec := some (Json.obj []),
          missingSections := Json.arr (defaultMissingSections.map Json.str) } := by
  refine ⟨rfl, ?_, ?_, ?_⟩
  · exact (synthesize_badResponse_spec (PRDEngineInput.update (Json.obj []) [] true)
      ("oops".data)).1 rfl
  · exact (synthesize_badResponse_spec (PRDEngineInput.update (Json.obj []) [] true)
      ("\x7b\x7d".data)).2.1 (Json.obj []) rfl (fun h => Json.noConfusion h) rfl (Or.inl rfl)
  · exact (synthesize_badResponse_spec (PRDEngineInput.update (Json.obj []) [] true)
      ("\x7b\"missingSections\": 5\x7d".data)).2.2
      (Json.obj [("missingSections".data, Json.num ['5'])]) (Json.num ['5']) rfl
      (fun h => Json.noConfusion h) rfl (fun h => Json.noConfusion h)
      (fun l h => Json.noConfusion h)

/-- Claim C2, counterexample: a gateway failure does not propagate out of
synthesize; the try block encloses the gateway call, so the catch branch
returns the fallback output normally. -/
theorem synthesize_gatewayFailure_cex :
    synthesize (PRDEngineInput.update (Json.obj []) [] true) GatewayResult.err
      = { spec := some (Json.obj []),
          missingSections := Json.arr (defaultMissingSections.map Json.str) } := rfl

/-- Claim C2, amended: when the gateway call itself fails, the Synthesis
Engine catches the failure and returns the unchanged input specification
with the default missing-section list; synthesize never throws. -/
theorem synthesize_gatewayFailure_spec (input : PRDEngineInput) :
    synthesize input GatewayResult.err
      = { spec := some input.currentSpec,
          missingSections := Json.arr (defaultMissingSections.map Json.str) } := rfl

/-- Claim C3, counterexample: a finalize-mode call with an unparseable
gateway response returns the default missing-section list, which is not the
empty list. -/
theorem finalize_missingSections_cex :
    (synthesize (PRDEngineInput.finalize (Json.obj []))
        (GatewayResult.ok ("garbage".data))).missingSections
      = Json.arr (defaultMissingSections.map Json.str)
    ∧ Json.arr (defaultMissingSections.map Json.str) ≠ Json.arr [] := by
  refine ⟨rfl, fun h => ?_⟩
  exact absurd (congrArg jsonArrLen h) (by decide)

/-- Claim C3, amended: finalize mode performs exactly the same response
handling as update mode (the mode influences only the prompt); in
particular, a parsed response whose missingSections is an array gets that
array returned as-is, so finalize returns the empty list only when the
model supplies or omits it, never unconditionally. -/
theorem finalize_missingSections_spec (cs : Json) (msgs : List Message) (fr : Bool)
    (gw : GatewayResult) :
    synthesize (PRDEngineInput.finalize cs) gw = synthesize (PRDEngineInput.update cs msgs fr) gw
    ∧ (∀ content r l, gw = GatewayResult.ok content →
        jsonParse (processContent content) = some r → r ≠ Json.null →
        jsProp r ("missingSections".data) = some (Json.arr l) →
        (synthesize (PRDEngineInput.finalize cs) gw).missingSections = Json.arr l) := by
  constructor
  · cases gw with
    | err => rfl
    | ok content =>
      simp only [synthesize]
      cases h : synthesizeTry content with
      | ok out => rfl
      | error e => rfl
  · intro content r l hgw hr hnn hm
    subst hgw
    simp only [synthesize, synthesizeTry, hr]
    cases r with
    | null => exact absurd rfl hnn
    | bool b => simp [jsProp] at hm
    | num l2 => simp [jsProp] at hm
    | str s => simp [jsProp] at hm
    | arr l2 => simp [jsProp] at hm
    | obj f => simp [handleParsed, hm]

/-- Claim C3, witness: a concrete finalize-mode call whose response carries
missingSections of flows gets exactly that list back, not the empty list. -/
theorem finalize_missingSections_witness :
    jsonParse (processContent ("\x7b\"missingSections\": [\"flows\"]\x7d".data))
      = some (Json.obj [("missingSections".data, Json.arr [Json.str ("flows".data)])])
    ∧ (synthesize (PRDEngineInput.finalize (Json.obj []))
        (GatewayResult.ok ("\x7b\"missingSections\": [\"flows\"]\x7d".data))).missingSections
      = Json.arr [Json.str ("flows".data)] := by
  refine ⟨rfl, ?_⟩
  exact (finalize_missingSections_spec (Json.obj []) [] true _).2 _ _ _ rfl rfl
    (fun h => Json.noConfusion h) rfl

/-- Claim C9, counterexample: a payload wrapped in fences with the
javascript language tag is not stripped (only the json tag is handled), so
parsing fails and the fallback output differs from the unfenced result. -/
theorem synthesize_fence_cex :
    synthesize (PRDEngineInput.update (Json.obj []) [] true)
        (GatewayResult.ok ("```javascript\n\x7b\"spec\": 1\x7d\n```".data))
      = { spec := some (Json.obj []),
          missingSections := Json.arr (defaultMissingSections.map Json.str) }
    ∧ synthesize (PRDEngineInput.update (Json.obj []) [] true)
        (GatewayResult.ok ("\x7b\"spec\": 1\x7d".data))
      = { spec := some (Json.num ['1']), missingSections := Json.arr [] }
    ∧ ({ spec := some (Json.obj []),
         missingSections := Json.arr (defaultMissingSections.map Json.str) } : PRDEngineOutput)
      ≠ { spec := some (Json.num ['1']), missingSections := Json.arr [] } := by
  refine ⟨rfl, rfl, fun h => ?_⟩
  exact absurd (congrArg (fun o => jsonArrLen o.missingSections) h) (by decide)

/-- Claim C9, amended: for a JSON payload with no surrounding whitespace,
wrapping it in markdown fences with the json language tag or with no tag is
transparent: synthesize returns the same result as for the bare payload.
(Other language tags are not stripped; see the counterexample.) -/
theorem synthesize_fence_transparent (input : PRDEngineInput) (p : List Char) (tagged : Bool)
    (v : Json) (hne : p ≠ [])
    (hh : ∀ c, p.head? = some c → isJsWs c = false)
    (hl : ∀ c, p.getLast? = some c → isJsWs c = false)
    (hv : jsonParse p = some v) :
    synthesize input (GatewayResult.ok
        ((if tagged then fence7 else tick3) ++ (nlChar :: (p ++ nlChar :: tick3))))
      = synthesize input (GatewayResult.ok p) := by
  have h1 : processContent ((if tagged then fence7 else tick3) ++ (nlChar :: (p ++ nlChar :: tick3)))
      = p ++ [nlChar] := processContent_fenced p tagged hne hh
  have h2 : processContent p = p := processContent_clean v hne hh hl hv
  have h3 : jsonParse (p ++ [nlChar]) = jsonParse p := by
    rw [jsonParse_append_nl hne hh hl, jsonParse_eq_parseTop hh hl]
  simp only [synthesize, synthesizeTry, h1, h2, h3]

/-- Claim C9, witness: a concrete payload wrapped in a json-tagged fence
synthesizes identically to the bare payload. -/
theorem synthesize_fence_transparent_witness :
    jsonParse ("\x7b\"spec\": 0\x7d".data)
      = some (Json.obj [("spec".data, Json.num ['0'])])
    ∧ synthesize (PRDEngineInput.update (Json.obj []) [] true)
        (GatewayResult.ok
          ((if true then fence7 else tick3) ++ (nlChar :: ("\x7b\"spec\": 0\x7d".data ++ nlChar :: tick3))))
      = synthesize (PRDEngineInput.update (Json.obj []) [] true)
        (GatewayResult.ok ("\x7b\"spec\": 0\x7d".data)) := by
  refine ⟨rfl, ?_⟩
  exact synthesize_fence_transparent _ _ true (Json.obj [("spec".data, Json.num ['0'])])
    (by decide) (fun c hc => by cases hc; decide) (fun c hc => by cases hc; decide) rfl

/-- Claim C10: when the gateway response parses to a non-null value whose
missingSections property is absent or null, synthesize returns
missingSections equal to the empty array rather than the default fallback
list. -/
theorem synthesize_missingAbsent_empty (input : PRDEngineInput) (content : List Char) (r : Json)
    (hr : jsonParse (processContent content) = some r) (hnn : r ≠ Json.null)
    (hm : jsProp r ("missingSections".data) = none
        ∨ jsProp r ("missingSections".data) = some Json.null) :
    (synthesize input (GatewayResult.ok content)).missingSections = Json.arr [] := by
  simp only [synthesize, synthesizeTry, hr]
  cases r with
  | null => exact absurd rfl hnn
  | bool b => simp [handleParsed, jsProp]
  | num l => simp [handleParsed, jsProp]
  | str s => simp [handleParsed, jsProp]
  | arr l => simp [handleParsed, jsProp]
  | obj f => rcases hm with hm | hm <;> simp [handleParsed, hm]

/-- Claim C10, witness: a concrete response with no missingSections key
yields the empty list. -/
theorem synthesize_missingAbsent_empty_witness :
    jsonParse (processContent ("\x7b\x7d".data)) = some (Json.obj [])
    ∧ (synthesize (PRDEngineInput.finalize Json.null)
        (GatewayResult.ok ("\x7b\x7d".data))).missingSections = Json.arr [] := by
  refine ⟨rfl, ?_⟩
  exact synthesize_missingAbsent_empty _ _ (Json.obj []) rfl
    (fun h => Json.noConfusion h) (Or.inl rfl)

/-! ## Session Manager (src/unnamed/part_003)

The Postgres store is modeled as lists of rows: INSERT appends, SELECT
WHERE filters, UPDATE maps over rows.  ORDER BY is modeled as a stable sort
(insertion sort), which preserves insertion order among equal keys; the
real Postgres leaves the relative order of equal keys unspecified. -/

/-- Status column of the sessions table. -/
inductive SessionStatus where
  | active : SessionStatus
  | abandoned : SessionStatus
deriving DecidableEq

/-- A row of the sessions table. -/
structure SessionRow where
  id : Nat
  createdAt : Nat
  lastAccessedAt : Nat
  magicLinkToken : Option Nat
  status : SessionStatus

/-- A row of the messages table. -/
structure MessageRow where
  id : Nat
  sessionId : Nat
  role : Role
  content : List Char
  timestamp : Nat
  metadata : Option Json

/-- A row of the specifications table. -/
structure SpecRow where
  rowId : Nat
  sessionId : Nat
  version : Int
  plainEnglishSummary : Json
  formalPRD : Json
  progressState : Json
  createdAt : Nat
  updatedAt : Nat

/-- The whole store. -/
structure DB where
  sessions : List SessionRow
  messages : List MessageRow
  specifications : List SpecRow

/-- A Specification object as the SessionManager builds and consumes it. -/
structure Specification where
  id : Nat
  version : Int
  plainEnglishSummary : Json
  formalPRD : Json
  lastUpdated : Nat

/-- Session state: conversation history, specification and progress, the
fields saveSessionState reads. -/
structure SessionState where
  conversationHistory : List Message
  specification : Specification
  progress : Json

/-- A Session object as returned to callers. -/
structure Session where
  id : Nat
  createdAt : Nat
  lastAccessedAt : Nat
  state : SessionState
  magicLinkToken : Option Nat

/-- The empty string as a JSON value. -/
def emptyStrJson : Json := Json.str []

/-- The plainEnglishSummary literal seeded by createSession (and used as the
in-memory default by getSession): overview, keyFeatures, targetUsers,
integrations only. -/
def defaultPlainEnglishSummary : Json :=
  Json.obj [("overview".data, emptyStrJson), ("keyFeatures".data, Json.arr []),
    ("targetUsers".data, emptyStrJson), ("integrations".data, Json.arr [])]

/-- The formalPRD literal seeded by createSession. -/
def defaultFormalPRD : Json :=
  Json.obj [("introduction".data, emptyStrJson), ("glossary".data, Json.obj []),
    ("requirements".data, Json.arr []), ("nonFunctionalRequirements".data, Json.arr [])]

/-- The progress literal seeded by createSession. -/
def defaultProgress : Json :=
  Json.obj [("topics".data, Json.arr []), ("overallCompleteness".data, Json.num ['0']),
    ("projectComplexity".data, Json.str ("Simple".data))]

/-- Comparison used by ORDER BY timestamp ASC. -/
def msgLe (a b : MessageRow) : Prop := a.timestamp ≤ b.timestamp

instance : DecidableRel msgLe :=
  fun a b => inferInstanceAs (Decidable (a.timestamp ≤ b.timestamp))

instance : IsTotal MessageRow msgLe := ⟨fun a b => Nat.le_total a.timestamp b.timestamp⟩

instance : IsTrans MessageRow msgLe := ⟨fun _ _ _ h1 h2 => Nat.le_trans h1 h2⟩

/-- Comparison used by ORDER BY version DESC. -/
def specVersionGe (a b : SpecRow) : Prop := b.version ≤ a.version

instance : DecidableRel specVersionGe :=
  fun a b => inferInstanceAs (Decidable (b.version ≤ a.version))

instance : IsTotal SpecRow specVersionGe := ⟨fun a b => Int.le_total b.version a.version⟩

instance : IsTrans SpecRow specVersionGe := ⟨fun _ _ _ h1 h2 => Int.le_trans h2 h1⟩

/-- SELECT of the messages of one session, in insertion order. -/
def msgsFor (db : DB) (sid : Nat) : List MessageRow :=
  db.messages.filter (fun m => decide (m.sessionId = sid))

/-- SELECT of the specification rows of one session, in insertion order. -/
def specsFor (db : DB) (sid : Nat) : List SpecRow :=
  db.specifications.filter (fun s => decide (s.sessionId = sid))

/-- SELECT of the session rows with a given id, in insertion order. -/
def sessionRowsFor (db : DB) (sid : Nat) : List SessionRow :=
  db.sessions.filter (fun r => decide (r.id = sid))

/-- ORDER BY timestamp ASC as a stable sort. -/
def orderByTimestamp (rows : List MessageRow) : List MessageRow :=
  List.insertionSort msgLe rows

/-- ORDER BY version DESC as a stable sort. -/
def orderByVersionDesc (rows : List SpecRow) : List SpecRow :=
  List.insertionSort specVersionGe rows

/-- Conversion of a fetched row to a Message object (getSession). -/
def rowToMessage (r : MessageRow) : Message :=
  { id := r.id, role := r.role, content := r.content, timestamp := r.timestamp,
    metadata := r.metadata }

/-- Conversion of a Message object to an inserted row (saveSessionState). -/
def messageToRow (sid : Nat) (m : Message) : MessageRow :=
  { id := m.id, sessionId := sid, role := m.role, content := m.content,
    timestamp := m.timestamp, metadata := m.metadata }

/-- UPDATE sessions SET last_accessed_at = NOW() WHERE id = sid. -/
def updateLastAccessedTime (db : DB) (sid : Nat) (now : Nat) : DB :=
  let upd := fun r : SessionRow => if r.id = sid then { r with lastAccessedAt := now } else r
  { db with sessions := db.sessions.map upd }

/-- SessionManager.createSession: insert the session row and the initial
version-0 specification row, and return the fresh Session object.  The
session id, the specification row id (both uuids) and the current time are
explicit arguments. -/
def createSession (db : DB) (sid specRowId now : Nat) : DB × Session :=
  let db1 : DB := { db with sessions := db.sessions ++
      [{ id := sid, createdAt := now, lastAccessedAt := now, magicLinkToken := none,
         status := SessionStatus.active }] }
  let db2 : DB := { db1 with specifications := db1.specifications ++
      [{ rowId := specRowId, sessionId := sid, version := 0,
         plainEnglishSummary := defaultPlainEnglishSummary, formalPRD := defaultFormalPRD,
         progressState := defaultProgress, createdAt := now, updatedAt := now }] }
  let spec0 : Specification :=
    { id := sid, version := 0, plainEnglishSummary := defaultPlainEnglishSummary,
      formalPRD := defaultFormalPRD, lastUpdated := now }
  let st0 : SessionState :=
    { conversationHistory := [], specification := spec0, progress := defaultProgress }
  (db2,
    { id := sid, createdAt := now, lastAccessedAt := now, state := st0, magicLinkToken := none })

/-- SessionManager.getSession: fetch the session row, the messages ordered
by timestamp, and the highest-version specification row (or an in-memory
default), update lastAccessedAt as a side effect, and return the
reconstructed Session (whose lastAccessedAt is the value read before the
update).  Returns none, leaving the store untouched, when the id is
unknown. -/
def getSession (db : DB) (sid : Nat) (now : Nat) : Option Session × DB :=
  match (sessionRowsFor db sid).head? with
  | none => (none, db)
  | some row =>
    let conversationHistory := (orderByTimestamp (msgsFor db sid)).map rowToMessage
    let specAndProgress : Specification × Json :=
      match (orderByVersionDesc (specsFor db sid)).head? with
      | some sr =>
        ({ id := sid, version := sr.version, plainEnglishSummary := sr.plainEnglishSummary,
           formalPRD := sr.formalPRD, lastUpdated := sr.updatedAt }, sr.progressState)
      | none =>
        ({ id := sid, version := 0, plainEnglishSummary := defaultPlainEnglishSummary,
           formalPRD := defaultFormalPRD, lastUpdated := row.createdAt }, defaultProgress)
    let db2 := updateLastAccessedTime db sid now
    (some { id := row.id, createdAt := row.createdAt, lastAccessedAt := row.lastAccessedAt,
            state := { conversationHistory := conversationHistory,
                       specification := specAndProgress.1, progress := specAndProgress.2 },
            magicLinkToken := row.magicLinkToken }, db2)

/-- The version of the latest stored specification row for a session
(ORDER BY version DESC LIMIT 1), or -1 when none exists. -/
def currentSpecVersion (db : DB) (sid : Nat) : Int :=
  match (orderByVersionDesc (specsFor db sid)).head? with
  | some r => r.version
  | none => -1

/-- SessionManager.saveSessionState: insert the messages of the state whose
ids are not yet stored (the already-stored id set is computed once, before
any insert), insert a new specification row exactly when the state's
version differs from the latest stored version, and refresh
lastAccessedAt. -/
def saveSessionState (db : DB) (sid : Nat) (state : SessionState) (now specRowId : Nat) : DB :=
  let existingIds := (msgsFor db sid).map (fun m => m.id)
  let newMessages := state.conversationHistory.filter (fun m => decide (¬ m.id ∈ existingIds))
  let db1 : DB := { db with messages := db.messages ++ newMessages.map (messageToRow sid) }
  let db2 : DB :=
    if state.specification.version = currentSpecVersion db sid then db1
    else { db1 with specifications := db1.specifications ++
        [{ rowId := specRowId, sessionId := sid, version := state.specification.version,
           plainEnglishSummary := state.specification.plainEnglishSummary,
           formalPRD := state.specification.formalPRD, progressState := state.progress,
           createdAt := now, updatedAt := now }] }
  updateLastAccessedTime db2 sid now

/-- SessionManager.generateMagicLink: store a fresh token (supplied by the
caller, standing for uuidv4) on every session row with the given id, and
return it. -/
def generateMagicLink (db : DB) (sid : Nat) (token : Nat) : Nat × DB :=
  let upd := fun r : SessionRow => if r.id = sid then { r with magicLinkToken := some token } else r
  (token, { db with sessions := db.sessions.map upd })

/-- Failure conditions thrown by the SessionManager. -/
inductive SessionError where
  | invalidToken : SessionError
  | sessionNotFound : SessionError
  | persistFailed : SessionError
deriving DecidableEq

/-- SessionManager.restoreSessionFromMagicLink: look the session up by
token (LIMIT 1), throw the invalid-token error when no row holds the token,
otherwise delegate to getSession on the resolved id. -/
def restoreSessionFromMagicLink (db : DB) (token : Nat) (now : Nat) :
    Except SessionError (Session × DB) :=
  match (db.sessions.filter (fun r => decide (r.magicLinkToken = some token))).head? with
  | none => Except.error SessionError.invalidToken
  | some row =>
    match getSession db row.id now with
    | (none, _) => Except.error SessionError.sessionNotFound
    | (some s, db2) => Except.ok (s, db2)

/-- SessionManager.abandonSession: mark the session abandoned; nothing else
changes. -/
def abandonSession (db : DB) (sid : Nat) : DB :=
  let upd := fun r : SessionRow => if r.id = sid then { r with status := SessionStatus.abandoned } else r
  { db with sessions := db.sessions.map upd }

/-- SessionManager.syncOfflineMessages: no-op on an empty queue; otherwise
load the session (throwing when it is missing, with the queue retained),
append the queued messages after the authoritative history, persist via
saveSessionState, and clear the local queue only after the persist
succeeds.  The boolean argument is the outcome of the awaited persist (the
store may reject it); on failure the error propagates and the queue is
returned unchanged. -/
def syncOfflineMessages (db : DB) (queue : List Message) (sid : Nat) (now specRowId : Nat)
    (persistOk : Bool) : Except SessionError DB × List Message :=
  if queue.isEmpty then (Except.ok db, queue)
  else
    match getSession db sid now with
    | (none, _) => (Except.error SessionError.sessionNotFound, queue)
    | (some session, db1) =>
      let updatedState : SessionState :=
        { conversationHistory := session.state.conversationHistory ++ queue,
          specification := session.state.specification,
          progress := session.state.progress }
      if persistOk then (Except.ok (saveSessionState db1 sid updatedState now specRowId), [])
      else (Except.error SessionError.persistFailed, queue)

/-! ## Helper lemmas about the Session Manager -/

theorem messages_updateLastAccessedTime (db : DB) (sid now : Nat) :
    (updateLastAccessedTime db sid now).messages = db.messages := rfl

theorem specifications_updateLastAccessedTime (db : DB) (sid now : Nat) :
    (updateLastAccessedTime db sid now).specifications = db.specifications := rfl

theorem filter_sessionId_map (sid : Nat) (l : List Message) :
    (l.map (messageToRow sid)).filter (fun r => decide (r.sessionId = sid))
      = l.map (messageToRow sid) := by
  induction l with
  | nil => rfl
  | cons m l ih => simp [messageToRow, List.filter_cons, ih]

theorem msgsFor_save (db : DB) (sid : Nat) (state : SessionState) (now specRowId : Nat) :
    msgsFor (saveSessionState db sid state now specRowId) sid
      = msgsFor db sid ++ (state.conversationHistory.filter
          (fun m => decide (¬ m.id ∈ (msgsFor db sid).map (fun m2 => m2.id)))).map
            (messageToRow sid) := by
  simp only [saveSessionState, updateLastAccessedTime]
  split <;> simp [msgsFor, List.filter_append, filter_sessionId_map]

theorem save_specifications_of_version_eq {db : DB} {sid : Nat} {state : SessionState}
    {now specRowId : Nat} (h : state.specification.version = currentSpecVersion db sid) :
    (saveSessionState db sid state now specRowId).specifications = db.specifications := by
  simp only [saveSessionState, updateLastAccessedTime, if_pos h]

theorem save_specifications_append (db : DB) (sid : Nat) (state : SessionState)
    (now specRowId : Nat) :
    ∃ tail, (saveSessionState db sid state now specRowId).specifications
      = db.specifications ++ tail := by
  simp only [saveSessionState, updateLastAccessedTime]
  split
  · exact ⟨[], by simp⟩
  · exact ⟨_, rfl⟩

theorem specsFor_save_of_version_ne {db : DB} {sid : Nat} {state : SessionState}
    {now specRowId : Nat} (h : ¬ state.specification.version = currentSpecVersion db sid) :
    specsFor (saveSessionState db sid state now specRowId) sid
      = specsFor db sid ++
        [{ rowId := specRowId, sessionId := sid, version := state.specification.version,
           plainEnglishSummary := state.specification.plainEnglishSummary,
           formalPRD := state.specification.formalPRD, progressState := state.progress,
           createdAt := now, updatedAt := now }] := by
  simp only [saveSessionState, updateLastAccessedTime, if_neg h]
  simp [specsFor, List.filter_append]

theorem specsFor_save_of_version_eq {db : DB} {sid : Nat} {state : SessionState}
    {now specRowId : Nat} (h : state.specification.version = currentSpecVersion db sid) :
    specsFor (saveSessionState db sid state now specRowId) sid = specsFor db sid := by
  unfold specsFor
  rw [show (saveSessionState db sid state now specRowId).specifications = db.specifications
    from save_specifications_of_version_eq h]

theorem version_le_currentSpecVersion {db : DB} {sid : Nat} {r : SpecRow}
    (hr : r ∈ specsFor db sid) : r.version ≤ currentSpecVersion db sid := by
  unfold currentSpecVersion
  cases hh : (orderByVersionDesc (specsFor db sid)).head? with
  | none =>
    have hnil : orderByVersionDesc (specsFor db sid) = [] := List.head?_eq_none_iff.mp hh
    have : r ∈ orderByVersionDesc (specsFor db sid) := by
      rw [orderByVersionDesc, List.mem_insertionSort]
      exact hr
    rw [hnil] at this
    cases this
  | some top =>
    have hmem : r ∈ orderByVersionDesc (specsFor db sid) := by
      rw [orderByVersionDesc, List.mem_insertionSort]
      exact hr
    have hsorted : List.Sorted specVersionGe (orderByVersionDesc (specsFor db sid)) :=
      List.sorted_insertionSort specVersionGe _
    obtain ⟨tl, hl⟩ : ∃ tl, orderByVersionDesc (specsFor db sid) = top :: tl := by
      cases hcase : orderByVersionDesc (specsFor db sid) with
      | nil => rw [hcase] at hh; cases hh
      | cons a tl =>
        rw [hcase] at hh
        exact ⟨tl, by rw [List.head?_cons] at hh; cases hh; rfl⟩
    rw [hl] at hsorted hmem
    rcases List.mem_cons.mp hmem with h | h
    · subst h; exact le_refl _
    · exact List.rel_of_sorted_cons hsorted r h

theorem getSession_eq {db : DB} {sid : Nat} (now : Nat) {row : SessionRow}
    (h : (sessionRowsFor db sid).head? = some row) :
    ∃ s db2, getSession db sid now = (some s, db2)
      ∧ s.state.conversationHistory = (orderByTimestamp (msgsFor db sid)).map rowToMessage
      ∧ db2.messages = db.messages := by
  unfold getSession
  rw [h]
  exact ⟨_, _, rfl, rfl, rfl⟩

theorem getSession_history_of_sorted {db : DB} {sid now : Nat} {s : Session} {db2 : DB}
    (hs : List.Sorted msgLe (msgsFor db sid))
    (h : getSession db sid now = (some s, db2)) :
    s.state.conversationHistory = (msgsFor db sid).map rowToMessage := by
  unfold getSession at h
  cases hrow : (sessionRowsFor db sid).head? with
  | none =>
    rw [hrow] at h
    simp at h
  | some row =>
    rw [hrow] at h
    simp only at h
    injection h with h1 h2
    injection h1 with h1
    rw [← h1]
    simp only [orderByTimestamp]
    rw [List.Sorted.insertionSort_eq hs]

/-- Token predicate used by the restore lookup. -/
def tokenPred (token : Nat) : SessionRow → Bool :=
  fun r => decide (r.magicLinkToken = some token)

/-- The row update performed by generateMagicLink. -/
def setToken (sid token : Nat) : SessionRow → SessionRow :=
  fun r => if r.id = sid then { r with magicLinkToken := some token } else r

theorem generateMagicLink_sessions (db : DB) (sid token : Nat) :
    (generateMagicLink db sid token).2.sessions = db.sessions.map (setToken sid token) := rfl

theorem filter_token_generate (sessions : List SessionRow) (sid token : Nat)
    (hfresh : ∀ r ∈ sessions, r.magicLinkToken ≠ some token) :
    (sessions.map (setToken sid token)).filter (tokenPred token)
      = (sessions.filter (fun r => decide (r.id = sid))).map (setToken sid token) := by
  induction sessions with
  | nil => rfl
  | cons r rest ih =>
    have hr := hfresh r (List.mem_cons_self r rest)
    have hrest := ih (fun x hx => hfresh x (List.mem_cons_of_mem r hx))
    by_cases hid : r.id = sid
    · simp [List.filter_cons, setToken, tokenPred, hid, hrest]
    · simp [List.filter_cons, setToken, tokenPred, hid, hr, hrest]

theorem filter_id_generate (sessions : List SessionRow) (sid token : Nat) :
    (sessions.map (setToken sid token)).filter (fun r => decide (r.id = sid))
      = (sessions.filter (fun r => decide (r.id = sid))).map (setToken sid token) := by
  induction sessions with
  | nil => rfl
  | cons r rest ih =>
    by_cases hid : r.id = sid
    · simp [List.filter_cons, setToken, hid, ih]
    · simp [List.filter_cons, setToken, hid, ih]

theorem map_id_messageToRow (sid : Nat) (l : List Message) :
    (l.map (messageToRow sid)).map (fun r => r.id) = l.map (fun m => m.id) := by
  induction l with
  | nil => rfl
  | cons m l ih => simp [messageToRow, ih]

theorem save_messages_append (db : DB) (sid : Nat) (state : SessionState)
    (now specRowId : Nat) :
    (saveSessionState db sid state now specRowId).messages
      = db.messages ++ (state.conversationHistory.filter
          (fun m => decide (¬ m.id ∈ (msgsFor db sid).map (fun m2 => m2.id)))).map
            (messageToRow sid) := by
  simp only [saveSessionState, updateLastAccessedTime]
  split <;> rfl

/-! ## Claims about the Session Manager -/

/-- The empty store. -/
def emptyDb : DB := { sessions := [], messages := [], specifications := [] }

/-- A minimal Specification object carrying a chosen version. -/
def versionSpec (v : Int) : Specification :=
  { id := 0, version := v, plainEnglishSummary := Json.null, formalPRD := Json.null,
    lastUpdated := 0 }

/-- A session state with no messages and a chosen specification version. -/
def versionState (v : Int) : SessionState :=
  { conversationHistory := [], specification := versionSpec v, progress := Json.null }

/-- Store reached by creating a session and then saving version 1 followed
by version 0 again (a version below the stored maximum). -/
def versionCexDb : DB :=
  saveSessionState
    (saveSessionState (createSession emptyDb 0 1 10).1 0 (versionState 1) 11 2)
    0 (versionState 0) 12 3

/-- Claim C4, counterexample: the stored history is not limited to one
snapshot per version: saving a state whose version is below the stored
maximum inserts a duplicate snapshot for that version (here version 0 is
stored twice). -/
theorem saveSessionState_version_cex :
    (specsFor versionCexDb 0).map (fun r => r.version) = [0, 1, 0]
    ∧ ¬ ([0, 1, 0] : List Int).Nodup := ⟨rfl, by decide⟩

/-- Claim C4, amended: the stored specification history is append-only (no
snapshot is ever mutated or removed); a save whose version equals the
highest stored version inserts nothing; and snapshots stay unique per
version as long as save versions never drop below the stored maximum.
Uniqueness can be violated by saving a version below the maximum (see the
counterexample). -/
theorem saveSessionState_version_spec (db : DB) (sid : Nat) (state : SessionState)
    (now specRowId : Nat) :
    (state.specification.version = currentSpecVersion db sid →
      (saveSessionState db sid state now specRowId).specifications = db.specifications)
    ∧ (∃ tail, (saveSessionState db sid state now specRowId).specifications
        = db.specifications ++ tail)
    ∧ (currentSpecVersion db sid ≤ state.specification.version →
        ((specsFor db sid).map (fun r => r.version)).Nodup →
        ((specsFor (saveSessionState db sid state now specRowId) sid).map
            (fun r => r.version)).Nodup) := by
  refine ⟨fun h => save_specifications_of_version_eq h,
    save_specifications_append db sid state now specRowId, ?_⟩
  intro hle hnd
  by_cases heq : state.specification.version = currentSpecVersion db sid
  · rw [specsFor_save_of_version_eq heq]
    exact hnd
  · rw [specsFor_save_of_version_ne heq, List.map_append, List.nodup_append]
    refine ⟨hnd, List.nodup_singleton _, ?_⟩
    intro a ha hb
    simp only [List.map_cons, List.map_nil, List.mem_singleton] at hb
    obtain ⟨r, hr, hrv⟩ := List.mem_map.mp ha
    have hle2 := version_le_currentSpecVersion hr
    subst hb
    omega

/-- Claim C4, witness: saving an unchanged version inserts nothing, and
saving a strictly larger version keeps versions duplicate-free. -/
theorem saveSessionState_version_witness :
    (versionState 0).specification.version = currentSpecVersion (createSession emptyDb 0 1 10).1 0
    ∧ (saveSessionState (createSession emptyDb 0 1 10).1 0 (versionState 0) 11 2).specifications
      = (createSession emptyDb 0 1 10).1.specifications
    ∧ ((specsFor (saveSessionState (createSession emptyDb 0 1 10).1 0 (versionState 1) 11 2) 0).map
        (fun r => r.version)).Nodup := by
  refine ⟨rfl, (saveSessionState_version_spec (createSession emptyDb 0 1 10).1 0
      (versionState 0) 11 2).1 rfl,
    (saveSessionState_version_spec (createSession emptyDb 0 1 10).1 0
      (versionState 1) 11 2).2.2 (by decide) (by decide)⟩

/-- A message literal used by concrete stores. -/
def mkMsg (i t : Nat) : Message :=
  { id := i, role := Role.user, content := [], timestamp := t, metadata := none }

/-- Store holding one save whose two messages carry decreasing
timestamps. -/
def orderCexDb : DB :=
  saveSessionState (createSession emptyDb 0 1 10).1 0
    { conversationHistory := [mkMsg 1 5, mkMsg 2 3],
      specification := versionSpec 0, progress := Json.null } 11 2

/-- Claim C5, counterexample: the conversation order returned by getSession
is timestamp order, not the original insertion order: two messages stored
in the order id 1 then id 2, with decreasing timestamps, come back as id 2
then id 1. -/
theorem getSession_order_cex :
    (msgsFor orderCexDb 0).map (fun r => r.id) = [1, 2]
    ∧ ((getSession orderCexDb 0 12).1.map
        (fun s => s.state.conversationHistory.map (fun m => m.id))) = some [2, 1]
    ∧ some ([2, 1] : List Nat) ≠ some [1, 2] := ⟨rfl, rfl, by decide⟩

/-- Claim C5, amended: only messages whose ids are not yet stored are
written, so stored ids stay duplicate-free and re-saving the same state is
a no-op for messages; getSession returns the stored list in its insertion
order whenever the stored timestamps are non-decreasing in insertion order
(the stable sort also keeps ties in insertion order in this model) -- but
not in general (see the counterexample). -/
theorem saveSessionState_messages_spec (db : DB) (sid : Nat) (state : SessionState)
    (now specRowId now2 specRowId2 : Nat)
    (hdb : ((msgsFor db sid).map (fun m => m.id)).Nodup)
    (hst : (state.conversationHistory.map (fun m => m.id)).Nodup) :
    ((msgsFor (saveSessionState db sid state now specRowId) sid).map (fun m => m.id)).Nodup
    ∧ (saveSessionState (saveSessionState db sid state now specRowId) sid state
          now2 specRowId2).messages
      = (saveSessionState db sid state now specRowId).messages
    ∧ (∀ s db2 now3,
        List.Sorted msgLe (msgsFor (saveSessionState db sid state now specRowId) sid) →
        getSession (saveSessionState db sid state now specRowId) sid now3 = (some s, db2) →
        s.state.conversationHistory
          = (msgsFor (saveSessionState db sid state now specRowId) sid).map rowToMessage) := by
  have hids : (msgsFor (saveSessionState db sid state now specRowId) sid).map (fun m => m.id)
      = (msgsFor db sid).map (fun m => m.id)
        ++ (state.conversationHistory.filter
              (fun m => decide (¬ m.id ∈ (msgsFor db sid).map (fun m2 => m2.id)))).map
            (fun m => m.id) := by
    rw [msgsFor_save, List.map_append, map_id_messageToRow]
  refine ⟨?_, ?_, ?_⟩
  · rw [hids, List.nodup_append]
    refine ⟨hdb, ?_, ?_⟩
    · exact List.Nodup.sublist (List.Sublist.map _ (List.filter_sublist _)) hst
    · intro a ha hb
      obtain ⟨m, hm, hmid⟩ := List.mem_map.mp hb
      have := (List.mem_filter.mp hm).2
      rw [decide_eq_true_eq] at this
      rw [hmid] at this
      exact this ha
  · rw [save_messages_append]
    have hnil : state.conversationHistory.filter
        (fun m => decide (¬ m.id ∈ (msgsFor (saveSessionState db sid state now specRowId) sid).map
            (fun m2 => m2.id))) = [] := by
      rw [List.filter_eq_nil_iff]
      intro m hm
      rw [hids]
      simp only [decide_eq_true_eq, not_not]
      by_cases hmem : m.id ∈ (msgsFor db sid).map (fun m2 => m2.id)
      · exact List.mem_append_left _ hmem
      · refine List.mem_append_right _ ?_
        exact List.mem_map.mpr ⟨m, List.mem_filter.mpr ⟨hm, by simpa using hmem⟩, rfl⟩
    rw [hnil]
    simp
  · intro s db2 now3 hs hget
    exact getSession_history_of_sorted hs hget

/-- A session state with three increasing-timestamp messages. -/
def sortedState : SessionState :=
  { conversationHistory := [mkMsg 1 3, mkMsg 2 5],
    specification := versionSpec 0, progress := Json.null }

/-- Claim C5, witness: a concrete double save keeps ids duplicate-free and
adds nothing on the second save. -/
theorem saveSessionState_messages_witness :
    ((msgsFor (createSession emptyDb 0 1 10).1 0).map (fun m => m.id)).Nodup
    ∧ ((sortedState.conversationHistory).map (fun m => m.id)).Nodup
    ∧ ((msgsFor (saveSessionState (createSession emptyDb 0 1 10).1 0 sortedState 11 2) 0).map
        (fun m => m.id)).Nodup
    ∧ (saveSessionState (saveSessionState (createSession emptyDb 0 1 10).1 0 sortedState 11 2) 0
          sortedState 12 3).messages
      = (saveSessionState (createSession emptyDb 0 1 10).1 0 sortedState 11 2).messages := by
  refine ⟨by decide, by decide, ?_, ?_⟩
  · exact (saveSessionState_messages_spec (createSession emptyDb 0 1 10).1 0 sortedState
      11 2 12 3 (by decide) (by decide)).1
  · exact (saveSessionState_messages_spec (createSession emptyDb 0 1 10).1 0 sortedState
      11 2 12 3 (by decide) (by decide)).2.1

/-- Claim C6: restoreSessionFromMagicLink fails with the invalid-token
error exactly when no session holds the token: with a token held by no
session it always errors; after generateMagicLink on an existing session
with a fresh token, restoring through that token returns exactly what
getSession returns on the same store. -/
theorem restoreMagicLink_spec :
    (∀ db token now, (∀ r ∈ db.sessions, r.magicLinkToken ≠ some token) →
      restoreSessionFromMagicLink db token now = Except.error SessionError.invalidToken)
    ∧ (∀ db sid token now, (∀ r ∈ db.sessions, r.magicLinkToken ≠ some token) →
        (∃ r ∈ db.sessions, r.id = sid) →
        ∃ s db2, getSession (generateMagicLink db sid token).2 sid now = (some s, db2)
          ∧ restoreSessionFromMagicLink (generateMagicLink db sid token).2 token now
            = Except.ok (s, db2)) := by
  constructor
  · intro db token now hfresh
    have hnil : db.sessions.filter (tokenPred token) = [] := by
      rw [List.filter_eq_nil_iff]
      intro r hr
      simp [tokenPred, hfresh r hr]
    unfold restoreSessionFromMagicLink
    rw [show db.sessions.filter (fun r => decide (r.magicLinkToken = some token)) = []
      from hnil]
    rfl
  · intro db sid token now hfresh hex
    obtain ⟨r0, hr0, hid0⟩ := hex
    have hmem : r0 ∈ db.sessions.filter (fun r => decide (r.id = sid)) :=
      List.mem_filter.mpr ⟨hr0, by simp [hid0]⟩
    obtain ⟨first, rest, hfil⟩ : ∃ a l, db.sessions.filter (fun r => decide (r.id = sid)) = a :: l := by
      cases hcase : db.sessions.filter (fun r => decide (r.id = sid)) with
      | nil =>
        rw [hcase] at hmem
        cases hmem
      | cons a l => exact ⟨a, l, rfl⟩
    have hfirstid : first.id = sid := by
      have hf : first ∈ db.sessions.filter (fun r => decide (r.id = sid)) := by
        rw [hfil]
        exact List.mem_cons_self first rest
      simpa using (List.mem_filter.mp hf).2
    have hrows : sessionRowsFor (generateMagicLink db sid token).2 sid
        = setToken sid token first :: rest.map (setToken sid token) := by
      unfold sessionRowsFor
      rw [generateMagicLink_sessions, filter_id_generate, hfil, List.map_cons]
    obtain ⟨s, db2, hget, _, _⟩ := getSession_eq now
      (show (sessionRowsFor (generateMagicLink db sid token).2 sid).head?
          = some (setToken sid token first) by rw [hrows]; rfl)
    refine ⟨s, db2, hget, ?_⟩
    have htok : (generateMagicLink db sid token).2.sessions.filter
        (fun r => decide (r.magicLinkToken = some token))
        = setToken sid token first :: rest.map (setToken sid token) := by
      rw [generateMagicLink_sessions]
      rw [show ((db.sessions.map (setToken sid token)).filter
            (fun r => decide (r.magicLinkToken = some token)))
          = (db.sessions.map (setToken sid token)).filter (tokenPred token) from rfl]
      rw [filter_token_generate db.sessions sid token hfresh, hfil, List.map_cons]
    have hsid : (setToken sid token first).id = sid := by
      simp [setToken, hfirstid]
    unfold restoreSessionFromMagicLink
    rw [htok]
    simp only [List.head?_cons]
    rw [hsid, hget]

/-- Store with one freshly created session, for the magic-link witness. -/
def c6Db : DB := (createSession emptyDb 0 1 10).1

/-- Claim C6, witness: on a concrete store, an unissued token errors and a
generated token restores exactly the getSession result. -/
theorem restoreMagicLink_witness :
    (∀ r ∈ c6Db.sessions, r.magicLinkToken ≠ some 9)
    ∧ restoreSessionFromMagicLink c6Db 9 20 = Except.error SessionError.invalidToken
    ∧ (∃ s db2, getSession (generateMagicLink c6Db 0 7).2 0 21 = (some s, db2)
        ∧ restoreSessionFromMagicLink (generateMagicLink c6Db 0 7).2 7 21
          = Except.ok (s, db2)) := by
  refine ⟨by decide, ?_, ?_⟩
  · exact restoreMagicLink_spec.1 c6Db 9 20 (by decide)
  · exact restoreMagicLink_spec.2 c6Db 0 7 21 (by decide) (by decide)

/-- Store with one freshly created session, for the zero-value claim. -/
def freshSessionDb : DB := (createSession emptyDb 0 1 10).1

/-- Claim C7, evidence of the code bug: createSession followed by
getSession yields a version-0 specification whose plainEnglishSummary has
empty overview, targetUsers and keyFeatures and a stray integrations field,
but NO flows, rulesAndConstraints, nonFunctional or mvpDefinition fields at
all (those properties are undefined, not empty lists), contradicting the
repository's own PlainEnglishSummary type. -/
theorem createSession_zeroValue_bug :
    ((getSession freshSessionDb 0 11).1.map (fun s => s.state.specification.version)) = some 0
    ∧ ((getSession freshSessionDb 0 11).1.map
        (fun s => jsProp s.state.specification.plainEnglishSummary ("overview".data)))
      = some (some emptyStrJson)
    ∧ ((getSession freshSessionDb 0 11).1.map
        (fun s => jsProp s.state.specification.plainEnglishSummary ("targetUsers".data)))
      = some (some emptyStrJson)
    ∧ ((getSession freshSessionDb 0 11).1.map
        (fun s => jsProp s.state.specification.plainEnglishSummary ("keyFeatures".data)))
      = some (some (Json.arr []))
    ∧ ((getSession freshSessionDb 0 11).1.map
        (fun s => jsProp s.state.specification.plainEnglishSummary ("integrations".data)))
      = some (some (Json.arr []))
    ∧ ((getSession freshSessionDb 0 11).1.map
        (fun s => jsProp s.state.specification.plainEnglishSummary ("flows".data)))
      = some none
    ∧ ((getSession freshSessionDb 0 11).1.map
        (fun s => jsProp s.state.specification.plainEnglishSummary ("rulesAndConstraints".data)))
      = some none
    ∧ ((getSession freshSessionDb 0 11).1.map
        (fun s => jsProp s.state.specification.plainEnglishSummary ("nonFunctional".data)))
      = some none
    ∧ ((getSession freshSessionDb 0 11).1.map
        (fun s => jsProp s.state.specification.plainEnglishSummary ("mvpDefinition".data)))
      = some none
    ∧ ((getSession freshSessionDb 0 11).1.map
        (fun s => jsProp s.state.specification.formalPRD ("introduction".data)))
      = some (some emptyStrJson)
    ∧ ((getSession freshSessionDb 0 11).1.map
        (fun s => jsProp s.state.specification.formalPRD ("requirements".data)))
      = some (some (Json.arr []))
    ∧ ((getSession freshSessionDb 0 11).1.map
        (fun s => jsProp s.state.specification.formalPRD ("nonFunctionalRequirements".data)))
      = some (some (Json.arr [])) :=
  ⟨rfl, rfl, rfl, rfl, rfl, rfl, rfl, rfl, rfl, rfl, rfl, rfl⟩

/-- Claim C8: with a session present and a non-empty queue of fresh
messages, a successful sync persists the queue after the stored messages in
their original relative order and clears the queue; a failed persist
propagates the error and leaves the queue untouched. -/
theorem syncOfflineMessages_spec (db : DB) (queue : List Message) (sid now specRowId : Nat)
    (row : SessionRow)
    (hrow : (sessionRowsFor db sid).head? = some row)
    (hq : queue ≠ [])
    (hfresh : ∀ m ∈ queue, ¬ m.id ∈ (msgsFor db sid).map (fun r => r.id)) :
    (∃ db2, syncOfflineMessages db queue sid now specRowId true = (Except.ok db2, [])
      ∧ msgsFor db2 sid = msgsFor db sid ++ queue.map (messageToRow sid))
    ∧ syncOfflineMessages db queue sid now specRowId false
      = (Except.error SessionError.persistFailed, queue) := by
  have hqe : queue.isEmpty = false := by
    cases queue
    · exact absurd rfl hq
    · rfl
  obtain ⟨s, db1, hget, hhist, hmsgs⟩ := getSession_eq now hrow
  have hm1 : msgsFor db1 sid = msgsFor db sid := by
    unfold msgsFor
    rw [hmsgs]
  have hstored : ∀ m ∈ s.state.conversationHistory,
      m.id ∈ (msgsFor db sid).map (fun r => r.id) := by
    intro m hm
    rw [hhist] at hm
    obtain ⟨r, hr, rfl⟩ := List.mem_map.mp hm
    have hr2 : r ∈ msgsFor db sid := by
      rw [orderByTimestamp, List.mem_insertionSort] at hr
      exact hr
    exact List.mem_map.mpr ⟨r, hr2, rfl⟩
  have hfil : (s.state.conversationHistory ++ queue).filter
      (fun m => decide (¬ m.id ∈ (msgsFor db sid).map (fun m2 => m2.id))) = queue := by
    rw [List.filter_append]
    have h1 : s.state.conversationHistory.filter
        (fun m => decide (¬ m.id ∈ (msgsFor db sid).map (fun m2 => m2.id))) = [] := by
      rw [List.filter_eq_nil_iff]
      intro m hm
      simp [hstored m hm]
    have h2 : queue.filter
        (fun m => decide (¬ m.id ∈ (msgsFor db sid).map (fun m2 => m2.id))) = queue := by
      rw [List.filter_eq_self]
      intro m hm
      simpa using hfresh m hm
    rw [h1, h2, List.nil_append]
  constructor
  · refine ⟨saveSessionState db1 sid
      { conversationHistory := s.state.conversationHistory ++ queue,
        specification := s.state.specification, progress := s.state.progress } now specRowId,
      ?_, ?_⟩
    · unfold syncOfflineMessages
      rw [hqe]
      simp only [Bool.false_eq_true, if_false]
      rw [hget]
      simp
    · simp only [msgsFor_save, hm1]
      exact congrArg (fun l => msgsFor db sid ++ l.map (messageToRow sid)) hfil
  · unfold syncOfflineMessages
    rw [hqe]
    simp only [Bool.false_eq_true, if_false]
    rw [hget]

/-- Base state with three increasing-timestamp messages for the sync
witness. -/
def syncBaseState : SessionState :=
  { conversationHistory := [mkMsg 1 1, mkMsg 2 2, mkMsg 3 3],
    specification := versionSpec 0, progress := Json.null }

/-- Store with three already-synced messages. -/
def syncDb : DB := saveSessionState (createSession emptyDb 0 1 10).1 0 syncBaseState 11 2

/-- A queue of two offline messages. -/
def syncQueue : List Message := [mkMsg 4 4, mkMsg 5 5]

/-- Claim C8, witness: a concrete session with three synced messages and
two queued ones ends up with the five messages in order on success, with
the queue cleared, and keeps the queue on failure. -/
theorem syncOfflineMessages_witness :
    (∀ m ∈ syncQueue, ¬ m.id ∈ (msgsFor syncDb 0).map (fun r => r.id))
    ∧ (∃ db2, syncOfflineMessages syncDb syncQueue 0 12 3 true = (Except.ok db2, [])
        ∧ msgsFor db2 0 = msgsFor syncDb 0 ++ syncQueue.map (messageToRow 0))
    ∧ syncOfflineMessages syncDb syncQueue 0 12 3 false
      = (Except.error SessionError.persistFailed, syncQueue) := by
  have h := syncOfflineMessages_spec syncDb syncQueue 0 12 3 _ rfl
    (List.cons_ne_nil _ _) (by decide)
  exact ⟨by decide, h.1, h.2⟩

end Builder
